import Mathlib

/-!
Verification development for the pesapal-backend-RDBMS storage engine
(`src/core/database/Column.ts` — classes `Column` and `Table`,
`src/core/database/Database.ts`, `src/core/storage/FileQueue.ts`).

The TypeScript runtime values that flow through the engine (JSON request
bodies, stored rows, index keys) are shallowly embedded as `Value`.
JavaScript numbers are modelled as exact rationals (`Rat`) with a separate
`nan` constructor for NaN; no claim in this development exercises
floating-point rounding.  `undefined` is modelled as the absence of a key,
i.e. as `Option.none` at lookup sites, distinct from `Value.null`
(JSON request bodies cannot carry `undefined`).
-/

namespace Pesapal

/-- Runtime value: JS null, a (finite) number, a string, or a boolean,
plus NaN which compares unequal to itself under strict equality. -/
inductive Value where
  | null : Value
  | num (q : Rat) : Value
  | str (s : String) : Value
  | bool (b : Bool) : Value
  | nan : Value
deriving DecidableEq, Repr

/-- JS strict equality `===` on possibly-absent values: `none` is
`undefined`; `undefined === undefined` holds, `null === undefined` does
not, and `NaN` is unequal to everything including itself. -/
def jsStrictEq : Option Value → Option Value → Bool
  | none, none => true
  | some a, some b =>
    match a, b with
    | .nan, _ => false
    | _, .nan => false
    | x, y => x == y
  | _, _ => false

/-- JS strict inequality `!==`. -/
def jsStrictNeq (a b : Option Value) : Bool := !(jsStrictEq a b)

/-- Numeric value of a digit list (most significant first); callers
guarantee every character is a decimal digit. -/
def digitsVal (cs : List Char) : Nat :=
  cs.foldl (fun a c => a * 10 + (c.toNat - 48)) 0

/-- Leading decimal literal `digits [. digits]` as an exact rational;
`none` when the characters do not form such a literal.  This models the
behaviour of JS `Number(...)` on plain decimal strings (the only string
shapes this development evaluates); hex/exponent forms are out of scope. -/
def parseDecimal (cs : List Char) : Option Rat :=
  let intPart := cs.takeWhile Char.isDigit
  let rest := cs.dropWhile Char.isDigit
  match rest with
  | [] => if intPart.isEmpty then none else some (digitsVal intPart : Rat)
  | '.' :: fracPart =>
    if fracPart.all Char.isDigit ∧ ¬(intPart.isEmpty ∧ fracPart.isEmpty) then
      some (mkRat (digitsVal intPart * 10 ^ fracPart.length + digitsVal fracPart)
        (10 ^ fracPart.length))
    else none
  | _ => none

/-- Whitespace trimming on character lists (the behaviour of JS string
trimming for the plain spaces these theorems evaluate). -/
def trimChars (cs : List Char) : List Char :=
  ((cs.dropWhile Char.isWhitespace).reverse.dropWhile Char.isWhitespace).reverse

/-- JS `Number(string)`: trimmed empty string is 0, otherwise an optional
sign followed by a decimal literal; `none` models NaN. -/
def jsStringToNumber (s : String) : Option Rat :=
  let t := trimChars s.toList
  if t.isEmpty then some 0
  else
    match t with
    | '-' :: rest => (parseDecimal rest).map (fun q => -q)
    | '+' :: rest => parseDecimal rest
    | cs => parseDecimal cs

/-- JS `Number(value)` coercion; `none` models NaN. -/
def jsToNumber : Value → Option Rat
  | .null => some 0
  | .num q => some q
  | .str s => jsStringToNumber s
  | .bool b => some (if b then 1 else 0)
  | .nan => none

/-- JS `Number.isInteger` applied to a coerced number (`none` = NaN). -/
def jsIsInteger : Option Rat → Bool
  | none => false
  | some q => q.den == 1

/-- JS truthiness (`Boolean(value)`). -/
def jsTruthy : Value → Bool
  | .null => false
  | .num q => q != 0
  | .str s => s ≠ ""
  | .bool b => b
  | .nan => false

/-- JS `typeof value` (for the error-message text of `validateRow`). -/
def jsTypeof : Value → String
  | .null => "object"
  | .num _ => "number"
  | .str _ => "string"
  | .bool _ => "boolean"
  | .nan => "number"

/-- Decimal rendering of a rational for JS `String(number)`.  Integral
values render exactly; non-integral values use a num/den rendering, which
no theorem of this development relies on. -/
def ratToString (q : Rat) : String :=
  if q.den = 1 then toString q.num
  else toString q.num ++ "/" ++ toString q.den

/-- JS `String(value)` coercion. -/
def jsString : Value → String
  | .null => "null"
  | .num q => ratToString q
  | .str s => s
  | .bool b => if b then "true" else "false"
  | .nan => "NaN"

/-- Leading optional sign + maximal digit prefix, as used by `parseInt`;
`none` models NaN (no leading digits). -/
def parseIntPrefix (cs : List Char) : Option Int :=
  match cs with
  | '-' :: rest =>
    let ds := rest.takeWhile Char.isDigit
    if ds.isEmpty then none else some (-(digitsVal ds : Int))
  | '+' :: rest =>
    let ds := rest.takeWhile Char.isDigit
    if ds.isEmpty then none else some (digitsVal ds : Int)
  | _ =>
    let ds := cs.takeWhile Char.isDigit
    if ds.isEmpty then none else some (digitsVal ds : Int)

/-- Truncation of a rational toward zero, the behaviour of `parseInt` on
an ordinary (non-exponent-notation) JS number. -/
def ratTrunc (q : Rat) : Int := Int.tdiv q.num (q.den : Int)

/-- JS `parseInt(value)`: numbers truncate toward zero, strings parse a
leading signed digit prefix after trimming, everything else is NaN
(`parseInt` of "true", "false", "null", "NaN" finds no digits). -/
def jsParseInt : Value → Value
  | .num q => .num (ratTrunc q : Rat)
  | .str s =>
    match parseIntPrefix (trimChars s.toList) with
    | some n => .num (n : Rat)
    | none => .nan
  | _ => .nan

/-- JS `parseFloat(value)`: numbers pass through, strings parse a leading
signed decimal literal after trimming, everything else is NaN. -/
def jsParseFloat : Value → Value
  | .num q => .num q
  | .str s =>
    let t := trimChars s.toList
    let parsed :=
      match t with
      | '-' :: rest => (parseDecimal rest).map (fun q => -q)
      | '+' :: rest => parseDecimal rest
      | cs => parseDecimal cs
    match parsed with
    | some q => .num q
    | none => .nan
  | _ => .nan

/-- Coarse model of `!isNaN(Date.parse(value)) || value instanceof Date`:
a string containing a digit is treated as date-parseable.  No claim of
this development exercises DATE columns; the definition only keeps
`Column.validate` total over the source's switch. -/
def jsDateParseOk : Value → Bool
  | .str s => s.toList.any Char.isDigit
  | _ => false

/-- Coarse model of `new Date(value).toISOString()`; exercised by no
claim (no DATE column appears in any theorem below). -/
def jsDateToIso (v : Value) : String := jsString v

/-! ### Rows

A `RowData` object is an ordered association of column name to value;
`Object.keys` order is the entry order.  A key that is absent reads as
`undefined` (`Option.none`). -/

/-- Entry-list assignment `obj[k] = v`: replace in place, else append. -/
def setEntry : List (String × Value) → String → Value → List (String × Value)
  | [], k, v => [(k, v)]
  | (k', v') :: t, k, v =>
    if k' = k then (k, v) :: t else (k', v') :: setEntry t k v

/-- A row object. -/
structure Row where
  entries : List (String × Value)
deriving DecidableEq, Repr

/-- `row[k]`: `none` models `undefined`. -/
def Row.get (r : Row) (k : String) : Option Value :=
  (r.entries.find? (fun e => e.1 = k)).map Prod.snd

/-- `row[k] = v`. -/
def Row.set (r : Row) (k : String) (v : Value) : Row :=
  ⟨setEntry r.entries k v⟩

/-- `Object.keys(row)`. -/
def Row.keys (r : Row) : List String := r.entries.map Prod.fst

/-! ### Secondary indexes

A per-column index is a JS `Map` from coerced value to an array of row
positions; `Map` keys compare by SameValueZero, under which `NaN` equals
`NaN`, matching decidable equality on `Value`.  Entry order is insertion
order. -/

/-- One column's index: value → array of row positions. -/
structure IndexMap where
  entries : List (Value × List Nat)
deriving DecidableEq, Repr

/-- `map.get(v)` (also `map.has(v)` via `isSome`). -/
def IndexMap.get (m : IndexMap) (v : Value) : Option (List Nat) :=
  (m.entries.find? (fun e => e.1 = v)).map Prod.snd

/-- `map.set(v, l)`: replace in place, else append. -/
def IndexMap.set (m : IndexMap) (v : Value) (l : List Nat) : IndexMap :=
  ⟨go m.entries⟩
where
  go : List (Value × List Nat) → List (Value × List Nat)
    | [] => [(v, l)]
    | (v', l') :: t => if v' = v then (v, l) :: t else (v', l') :: go t

/-- `map.delete(v)`. -/
def IndexMap.delete (m : IndexMap) (v : Value) : IndexMap :=
  ⟨m.entries.filter (fun e => e.1 ≠ v)⟩

/-- `map.forEach((indices, value) => map.set(value, f indices))` — setting
an existing key replaces it in place, so the traversal is a pointwise map
over the entries. -/
def IndexMap.mapIndices (m : IndexMap) (f : List Nat → List Nat) : IndexMap :=
  ⟨m.entries.map (fun e => (e.1, f e.2))⟩

/-- The table's indexes: column name → `IndexMap`, in creation order. -/
def Indexes := List (String × IndexMap)

instance : DecidableEq Indexes := inferInstanceAs (DecidableEq (List (String × IndexMap)))

/-- `this.indexes.get(columnName)`. -/
def Indexes.get (ixs : Indexes) (columnName : String) : Option IndexMap :=
  (List.find? (fun e => e.1 = columnName) ixs).map Prod.snd

/-- `this.indexes.set(columnName, m)`. -/
def Indexes.set (ixs : Indexes) (columnName : String) (m : IndexMap) : Indexes :=
  go ixs
where
  go : List (String × IndexMap) → List (String × IndexMap)
    | [] => [(columnName, m)]
    | (k, m') :: t => if k = columnName then (columnName, m) :: t else (k, m') :: go t

/-! ### Column (`src/core/database/Column.ts`)

The source's `DataType` is the TS union
`'INTEGER' | 'STRING' | 'BOOLEAN' | 'FLOAT' | 'DATE'`, which is erased at
runtime; the runtime switch dispatches on the string, with a `default`
branch, so the embedded type is `String`. -/

/-- A column definition as held by a `Table`. -/
structure Column where
  name : String
  type : String
  primaryKey : Bool := false
  unique : Bool := false
  nullable : Bool := true
  defaultValue : Value := .null
deriving DecidableEq, Repr

/-- `Column.validate(value)`: null/undefined is valid iff nullable,
otherwise a type-specific predicate; unknown types reject everything. -/
def Column.validate (col : Column) (value : Option Value) : Bool :=
  match value with
  | none => col.nullable
  | some .null => col.nullable
  | some v =>
    match col.type with
    | "INTEGER" => jsIsInteger (jsToNumber v)
    | "FLOAT" => (jsToNumber v).isSome
    | "STRING" => match v with | .str _ => true | _ => false
    | "BOOLEAN" =>
      (match v with | .bool _ => true | _ => false) ||
        v == .str "true" || v == .str "false" || v == .num 0 || v == .num 1
    | "DATE" => jsDateParseOk v
    | _ => false

/-- `Column.serialize(value)`: null/undefined store as null, otherwise a
type-directed coercion; unknown types pass the value through. -/
def Column.serialize (col : Column) (value : Value) : Value :=
  match value with
  | .null => .null
  | v =>
    match col.type with
    | "INTEGER" => jsParseInt v
    | "FLOAT" => jsParseFloat v
    | "BOOLEAN" => .bool (jsTruthy v)
    | "STRING" => .str (jsString v)
    | "DATE" => .str (jsDateToIso v)
    | _ => v

/-! ### Table (`src/core/database/Column.ts`, class `Table`)

`onChange` in the source is always either absent or the owning database's
save trigger; its presence is modelled at the `Database` layer, where the
caller of a mutator fires the save trigger exactly when the mutator calls
`notifyChange()` (on a successful insert, on an update with at least one
affected row, on a delete with at least one removed row). -/

/-- `value === undefined || value === null`. -/
def isNullish : Option Value → Bool
  | none => true
  | some .null => true
  | some _ => false

/-- Result of `Table.insert`. -/
structure InsertResult where
  success : Bool
  row : Option Row := none
  errors : Option (List String) := none
deriving DecidableEq, Repr

/-- Result of `Table.update`. -/
structure UpdateResult where
  success : Bool
  rowsAffected : Nat
  errors : Option (List String) := none
deriving DecidableEq, Repr

/-- Result of `Table.delete`. -/
structure DeleteResult where
  success : Bool
  rowsAffected : Nat
deriving DecidableEq, Repr

/-- A table: ordered columns, ordered rows (position = list index), and
per-indexed-column secondary indexes. -/
structure Table where
  name : String
  columns : List Column
  primaryKeyColumn : Option String := none
  rows : List Row := []
  indexes : Indexes := []
deriving DecidableEq

/-- `createIndexes()`: an (initially empty) index for every column
flagged primaryKey or unique. -/
def Table.createIndexes (columns : List Column) : Indexes :=
  columns.foldl
    (fun ixs column =>
      if column.primaryKey || column.unique then Indexes.set ixs column.name ⟨[]⟩ else ixs)
    []

/-- The `Table` constructor. -/
def Table.new (name : String) (columns : List Column)
    (primaryKeyColumn : Option String) : Table :=
  { name := name, columns := columns, primaryKeyColumn := primaryKeyColumn,
    rows := [], indexes := Table.createIndexes columns }

/-- `updateIndex(columnName, value, rowIndex)`: ensure the value's array
exists, then push `rowIndex` if not already present. -/
def Table.updateIndex (t : Table) (columnName : String) (value : Value)
    (rowIndex : Nat) : Table :=
  match Indexes.get t.indexes columnName with
  | none => t
  | some index =>
    let index := if (index.get value).isSome then index else index.set value []
    let indices := (index.get value).getD []
    let index := if rowIndex ∈ indices then index else index.set value (indices ++ [rowIndex])
    { t with indexes := Indexes.set t.indexes columnName index }

/-- `removeFromIndex(columnName, value, rowIndex)`: filter the position
out of the value's array; delete the key when the array becomes empty. -/
def Table.removeFromIndex (t : Table) (columnName : String) (value : Value)
    (rowIndex : Nat) : Table :=
  match Indexes.get t.indexes columnName with
  | none => t
  | some index =>
    match index.get value with
    | none => t
    | some indices =>
      let updatedIndices := indices.filter (fun i => i ≠ rowIndex)
      let index :=
        if updatedIndices.isEmpty then index.delete value
        else index.set value updatedIndices
      { t with indexes := Indexes.set t.indexes columnName index }

/-- `findByIndex(columnName, value)`: index lookup; a stale position past
the row array reads as `{...undefined}`, the empty object. -/
def Table.findByIndex (t : Table) (columnName : String) (value : Value) : List Row :=
  match Indexes.get t.indexes columnName with
  | none => []
  | some index =>
    match index.get value with
    | none => []
    | some indices => indices.map (fun i => t.rows.getD i ⟨[]⟩)

/-- The errors `validateRow` pushes for one column, in push order:
required check (which skips the rest on failure), then type check, then
the unique-constraint check with the source's field-differencing
"same row" heuristic.  The quote characters of the source's message
literals are omitted. -/
def Table.columnErrors (t : Table) (data : Row) (column : Column) : List String :=
  let value := data.get column.name
  if ¬column.nullable ∧ isNullish value then
    ["Column " ++ column.name ++ " is required"]
  else
    let typeErrs :=
      if ¬isNullish value ∧ ¬column.validate value then
        ["Invalid value for column " ++ column.name ++ ". Expected " ++ column.type ++
          ", got " ++ jsTypeof (value.getD .null)]
      else []
    let uniqueErrs :=
      if column.unique ∧ ¬isNullish value then
        let v := value.getD .null
        let existing := t.findByIndex column.name v
        if existing.length > 0 then
          let isSameRow := existing.all (fun row =>
            data.keys.any (fun key => jsStrictNeq (data.get key) (row.get key)))
          if ¬isSameRow then
            ["Duplicate value for unique column " ++ column.name ++ ": " ++ jsString v]
          else []
        else []
      else []
    typeErrs ++ uniqueErrs

/-- `validateRow(data)`: per-column error accumulation over all columns;
valid iff no error was accumulated. -/
def Table.validateRow (t : Table) (data : Row) : Bool × List String :=
  let errors := t.columns.foldl (fun errs column => errs ++ t.columnErrors data column) []
  (errors.isEmpty, errors)

/-- The row-construction loop shared (verbatim in the source) by
`Table.insert` and `Database.insertWithoutNotify`: serialize each
supplied value, fill an unsupplied column with its declared default. -/
def buildRowStep (data : Row) (row : Row) (column : Column) : Row :=
  match data.get column.name with
  | some v => row.set column.name (column.serialize v)
  | none => row.set column.name column.defaultValue

/-- The stored row built from the submitted data. -/
def buildRow (columns : List Column) (data : Row) : Row :=
  columns.foldl (buildRowStep data) (Row.mk [])

/-- The index-update loop shared by the two insert paths: for every
indexed column, record the new row's value at the new position. -/
def indexStep (row : Row) (rowIndex : Nat) (tb : Table) (column : Column) : Table :=
  if column.primaryKey || column.unique then
    tb.updateIndex column.name ((row.get column.name).getD .null) rowIndex
  else tb

/-- Apply `indexStep` across the table's columns. -/
def addRowToIndexes (tb : Table) (row : Row) (rowIndex : Nat) : Table :=
  tb.columns.foldl (indexStep row rowIndex) tb

/-- `insert(data)`: validate the whole row, then build the stored row
(serializing supplied values, defaulting unsupplied ones), append it, and
update every secondary index for the new position. -/
def Table.insert (t : Table) (data : Row) : Table × InsertResult :=
  let validation := t.validateRow data
  if ¬validation.1 then
    (t, { success := false, errors := some validation.2 })
  else
    let row := buildRow t.columns data
    let rowIndex := t.rows.length
    let tb := { t with rows := t.rows ++ [row] }
    let tb := addRowToIndexes tb row rowIndex
    (tb, { success := true, row := some row })

/-- `select(where?)`: linear scan returning (copies of) matching rows. -/
def Table.select (t : Table) (wh : Option (Row → Bool)) : List Row :=
  match wh with
  | none => t.rows
  | some p => t.rows.filter p

/-- `update(updates, where?)`: phase one snapshots matching (position,
row) pairs; phase two per candidate applies the serialized updates,
revalidates against the current table, skips the row on failure, and
otherwise swaps index entries for changed indexed columns around the row
replacement. -/
def Table.update (t : Table) (updates : Row) (wh : Option (Row → Bool)) :
    Table × UpdateResult :=
  let rowsToUpdate := (List.range t.rows.length).filterMap
    (fun i =>
      let row := t.rows.getD i ⟨[]⟩
      match wh with
      | none => some (i, row)
      | some p => if p row then some (i, row) else none)
  let step := fun (st : Table × Nat × List String) (iu : Nat × Row) =>
    let tb := st.1
    let affected := st.2.1
    let errors := st.2.2
    let index := iu.1
    let row := iu.2
    let updatedRow := updates.entries.foldl
      (fun (ur : Row) e =>
        match tb.columns.find? (fun c => c.name = e.1) with
        | some column => ur.set e.1 (column.serialize e.2)
        | none => ur)
      row
    let validation := tb.validateRow updatedRow
    if ¬validation.1 then
      (tb, affected,
        errors ++ ["Row at index " ++ toString index ++ ": " ++
          String.intercalate ", " validation.2])
    else
      let changedIndexedColumns := tb.columns.filterMap
        (fun column =>
          if (column.primaryKey || column.unique) &&
              jsStrictNeq (row.get column.name) (updatedRow.get column.name) then
            some (column.name, (row.get column.name).getD .null,
              (updatedRow.get column.name).getD .null)
          else none)
      let tb := changedIndexedColumns.foldl
        (fun tb c => tb.removeFromIndex c.1 c.2.1 index) tb
      let tb := { tb with rows := tb.rows.set index updatedRow }
      let tb := changedIndexedColumns.foldl
        (fun tb c => tb.updateIndex c.1 c.2.2 index) tb
      (tb, affected + 1, errors)
  let res := rowsToUpdate.foldl step (t, 0, [])
  (res.1,
    { success := res.2.2.isEmpty, rowsAffected := res.2.1,
      errors := if res.2.2.isEmpty then none else some res.2.2 })

/-- `delete(where?)`: collect matching positions (ascending scan), sort
descending (= reverse), and per position: strip the row's index entries,
splice the row out, then renumber every index array with
`indices.map(i => i > index ? i - 1 : i).filter(i => i !== index)` —
the map-then-filter order is the source's. -/
def Table.delete (t : Table) (wh : Option (Row → Bool)) : Table × DeleteResult :=
  let indicesToDelete := (List.range t.rows.length).filter
    (fun i =>
      match wh with
      | none => true
      | some p => p (t.rows.getD i ⟨[]⟩))
  let sorted := indicesToDelete.reverse
  let tb := sorted.foldl
    (fun tb index =>
      let row := tb.rows.getD index ⟨[]⟩
      let tb := tb.columns.foldl
        (fun tb column =>
          if column.primaryKey || column.unique then
            tb.removeFromIndex column.name ((row.get column.name).getD .null) index
          else tb)
        tb
      let tb := { tb with rows := tb.rows.eraseIdx index }
      let tb := tb.columns.foldl
        (fun tb column =>
          if column.primaryKey || column.unique then
            match Indexes.get tb.indexes column.name with
            | none => tb
            | some indexMap =>
              let newMap := indexMap.mapIndices
                (fun indices =>
                  (indices.map (fun i => if i > index then i - 1 else i)).filter
                    (fun i => i ≠ index))
              { tb with indexes := Indexes.set tb.indexes column.name newMap }
          else tb)
        tb
      tb)
    t
  (tb, { success := true, rowsAffected := indicesToDelete.length })

/-- The structural copy returned by `getSchema()`. -/
structure ColumnSchema where
  name : String
  type : String
  primaryKey : Bool
  unique : Bool
  nullable : Bool
  defaultValue : Value
deriving DecidableEq, Repr

/-- `getSchema()` result shape. -/
structure TableSchema where
  name : String
  columns : List ColumnSchema
  rowCount : Nat
deriving DecidableEq, Repr

/-- `getSchema()`. -/
def Table.getSchema (t : Table) : TableSchema :=
  { name := t.name,
    columns := t.columns.map (fun col =>
      ⟨col.name, col.type, col.primaryKey, col.unique, col.nullable, col.defaultValue⟩),
    rowCount := t.rows.length }

/-- `getAllRows()`. -/
def Table.getAllRows (t : Table) : List Row := t.rows

/-! ### Database (`src/core/database/Database.ts`)

Filesystem paths and the wall clock are host effects: the snapshot
payloads handed to `fileQueue.enqueue` are recorded in the `jobs` field
(the queue's write destination is always the one database file), and the
`timestamp` field of a produced snapshot is abstracted to `""`. -/

/-- A column definition as received by `Database.createTable`.  The
runtime request body may carry `nullable` and `defaultValue` (they are in
the `ColumnDefinition` interface of `src/types/database.ts`), but
`createTable` reads only `name`, `type`, `primaryKey` and `unique`. -/
structure ColumnDef where
  name : String
  type : String
  primaryKey : Option Bool := none
  unique : Option Bool := none
  nullable : Option Bool := none
  defaultValue : Option Value := none
deriving DecidableEq, Repr

/-- One table inside a persisted snapshot. -/
structure SavedTable where
  name : String
  schema : TableSchema
  rows : List Row
deriving DecidableEq, Repr

/-- The persisted snapshot document (`toJSON()` shape). -/
structure Snapshot where
  name : String
  version : String
  timestamp : String
  tables : List SavedTable
deriving DecidableEq, Repr

/-- `this.tables.set(name, table)` on the database's table registry. -/
def tablesSet : List (String × Table) → String → Table → List (String × Table)
  | [], k, t => [(k, t)]
  | (k', t') :: rest, k, t =>
    if k' = k then (k, t) :: rest else (k', t') :: tablesSet rest k t

/-- The database: registry of named tables, the initializing flag, and
the log of snapshot payloads enqueued for persistence. -/
structure Database where
  name : String
  tables : List (String × Table)
  isInitializing : Bool := false
  jobs : List Snapshot := []
deriving DecidableEq

/-- `getTable(tableName)`. -/
def Database.getTable (db : Database) (tableName : String) : Option Table :=
  (db.tables.find? (fun e => e.1 = tableName)).map Prod.snd

/-- `listTables()`: registry keys in insertion order. -/
def Database.listTables (db : Database) : List String := db.tables.map Prod.fst

/-- `toJSON()`: name, format version, timestamp (abstracted), and every
table's schema plus full row set. -/
def Database.toJSON (db : Database) : Snapshot :=
  { name := db.name, version := "1.0", timestamp := "",
    tables := db.tables.map (fun e =>
      { name := e.1, schema := e.2.getSchema, rows := e.2.select none }) }

/-- `saveToFile()`: ignored while initializing, otherwise enqueues the
current snapshot (the queue write itself is asynchronous). -/
def Database.saveToFile (db : Database) : Database :=
  if db.isInitializing then db
  else { db with jobs := db.jobs ++ [db.toJSON] }

/-- The column `createTable` builds from one definition: only `name`,
`type`, `primaryKey` and `unique` are forwarded; `nullable` and
`defaultValue` keep the `Column` constructor defaults. -/
def createColumnOf (col : ColumnDef) : Column :=
  { name := col.name, type := col.type,
    primaryKey := col.primaryKey.getD false, unique := col.unique.getD false }

/-- The table `createTable` registers for the given definitions. -/
def createdTable (tableName : String) (columns : List ColumnDef) : Table :=
  Table.new tableName (columns.map createColumnOf)
    ((columns.find? (fun col => col.primaryKey.getD false)).map (·.name))

/-- `createTable(tableName, columns)`: throws on a duplicate name;
otherwise builds the columns (forwarding only name, type, primaryKey,
unique), determines the primary-key column, registers the table wired to
the save trigger, and saves immediately.  No runtime check of the column
type strings is performed. -/
def Database.createTable (db : Database) (tableName : String)
    (columns : List ColumnDef) : Except String Database :=
  if (db.getTable tableName).isSome then
    .error ("Table " ++ tableName ++ " already exists")
  else
    let table := createdTable tableName columns
    let db := { db with tables := tablesSet db.tables tableName table }
    .ok db.saveToFile

/-- `dropTable(tableName)`. -/
def Database.dropTable (db : Database) (tableName : String) : Database × Bool :=
  if (db.getTable tableName).isSome then
    let db := { db with tables := db.tables.filter (fun e => e.1 ≠ tableName) }
    (db.saveToFile, true)
  else (db, false)

/-- The request layer's row insert: `getTable` then `table.insert`; a
successful insert fires `notifyChange()`, i.e. the database's
`saveToFile`. -/
def Database.insertRow (db : Database) (tableName : String) (data : Row) :
    Database × Option InsertResult :=
  match db.getTable tableName with
  | none => (db, none)
  | some table =>
    let r := table.insert data
    let db := { db with tables := tablesSet db.tables tableName r.1 }
    let db := if r.2.success then db.saveToFile else db
    (db, some r.2)

/-- The request layer's row delete: `getTable` then `table.delete`; the
table fires `notifyChange()` when at least one row was removed. -/
def Database.deleteRows (db : Database) (tableName : String)
    (wh : Option (Row → Bool)) : Database × Option DeleteResult :=
  match db.getTable tableName with
  | none => (db, none)
  | some table =>
    let r := table.delete wh
    let db := { db with tables := tablesSet db.tables tableName r.1 }
    let db := if r.2.rowsAffected > 0 then db.saveToFile else db
    (db, some r.2)

/-- `insertWithoutNotify(table, rowData)`: the restoration-only insert
path — identical row validation, row construction and index maintenance
as `Table.insert`, with no change notification. -/
def Database.insertWithoutNotify (table : Table) (rowData : Row) :
    Table × InsertResult :=
  let validation := table.validateRow rowData
  if ¬validation.1 then
    (table, { success := false, errors := some validation.2 })
  else
    let row := buildRow table.columns rowData
    let rowIndex := table.rows.length
    let tb := { table with rows := table.rows ++ [row] }
    let tb := addRowToIndexes tb row rowIndex
    (tb, { success := true })

/-- `restoreFromData(savedData)`: per saved table, recreate the columns
from the stored schema, build the table without a change callback,
re-insert every stored row through `insertWithoutNotify` (failures are
logged and skipped), and register the table. -/
def Database.restoreFromData (db : Database) (savedData : Snapshot) : Database :=
  savedData.tables.foldl
    (fun db tableData =>
      let columns : List Column := tableData.schema.columns.map (fun colData =>
        { name := colData.name, type := colData.type,
          primaryKey := colData.primaryKey, unique := colData.unique,
          nullable := colData.nullable, defaultValue := colData.defaultValue })
      let table := Table.new tableData.name columns
        ((tableData.schema.columns.find? (fun c => c.primaryKey)).map (·.name))
      let table := tableData.rows.foldl
        (fun table rowData => (Database.insertWithoutNotify table rowData).1) table
      { db with tables := tablesSet db.tables tableData.name table })
    db

/-- The constructor's startup restoration when the data file holds
`saved`: enter the initializing state, restore, clear the flag.  Any
`saveToFile` during this window is ignored by its initializing guard. -/
def Database.restore (name : String) (saved : Snapshot) : Database :=
  let db : Database := { name := name, tables := [], isInitializing := true, jobs := [] }
  let db := db.restoreFromData saved
  { db with isInitializing := false }

/-! ### FileQueue (`src/core/storage/FileQueue.ts`)

`processQueue` shifts the head job and attempts its write.  On success it
deletes the destination's retry counter and continues; on failure with a
counter below `MAX_RETRIES` it increments the counter and, after the
backoff delay, unshifts the same job onto the front and resumes; at or
above the maximum it deletes the counter and continues with the next job.
During the backoff delay `isProcessing` stays `true`, so a concurrent
`enqueue` only appends — no other job runs between a failure and the
retried attempt.  The embedding therefore sequentializes the event order
exactly: a retried job resumes at the front, ahead of everything else.

Write outcomes are an oracle carried by the job: `outcomes` lists the
results of its successive write attempts (an exhausted list reads as
success).  `id` identifies a job across its retries for trace
statements. -/

/-- A pending job with its write-outcome oracle. -/
structure QJob where
  id : Nat
  dest : String
  outcomes : List Bool
deriving DecidableEq, Repr

/-- Trace events of queue processing. -/
inductive QEvent where
  | attempt (id : Nat)
  | written (id : Nat) (dest : String)
  | pushback (id : Nat)
  | dropped (id : Nat) (dest : String)
deriving DecidableEq, Repr

/-- `MAX_RETRIES = 3`. -/
def MAX_RETRIES : Nat := 3

/-- `this.retryAttempts.get(filePath) || 0`. -/
def getRetry (m : List (String × Nat)) (d : String) : Nat :=
  ((m.find? (fun e => e.1 = d)).map Prod.snd).getD 0

/-- `this.retryAttempts.set(filePath, n)`. -/
def setRetry : List (String × Nat) → String → Nat → List (String × Nat)
  | [], d, n => [(d, n)]
  | (d', n') :: t, d, n =>
    if d' = d then (d, n) :: t else (d', n') :: setRetry t d n

/-- `this.retryAttempts.delete(filePath)`. -/
def delRetry (m : List (String × Nat)) (d : String) : List (String × Nat) :=
  m.filter (fun e => e.1 ≠ d)

/-- `processQueue()` run to quiescence from a retry-counter map and a
pending queue: returns the event trace and the final counter map. -/
def processQueue (retry : List (String × Nat)) (jobs : List QJob) :
    List QEvent × List (String × Nat) :=
  match jobs with
  | [] => ([], retry)
  | j :: rest =>
    match h : j.outcomes with
    | [] =>
      let r := processQueue (delRetry retry j.dest) rest
      (.attempt j.id :: .written j.id j.dest :: r.1, r.2)
    | true :: _ =>
      let r := processQueue (delRetry retry j.dest) rest
      (.attempt j.id :: .written j.id j.dest :: r.1, r.2)
    | false :: os' =>
      let c := getRetry retry j.dest
      if c < MAX_RETRIES then
        let r := processQueue (setRetry retry j.dest (c + 1))
          ({ j with outcomes := os' } :: rest)
        (.attempt j.id :: .pushback j.id :: r.1, r.2)
      else
        let r := processQueue (delRetry retry j.dest) rest
        (.attempt j.id :: .dropped j.id j.dest :: r.1, r.2)
termination_by (jobs.length, (jobs.headD ⟨0, "", []⟩).outcomes.length)
decreasing_by
  · simp_wf
    omega
  · simp_wf
    omega
  · simp_wf
    simp [h]
    omega
  · simp_wf
    omega

/-- The events one head job contributes before it leaves the queue
(written or dropped), starting from retry count `c`: the retry loop keeps
the job at the front, so its attempts are consecutive in the trace. -/
def episodeEvents (i : Nat) (d : String) : Nat → List Bool → List QEvent
  | _, [] => [.attempt i, .written i d]
  | _, true :: _ => [.attempt i, .written i d]
  | c, false :: os' =>
    if c < MAX_RETRIES then .attempt i :: .pushback i :: episodeEvents i d (c + 1) os'
    else [.attempt i, .dropped i d]

/-- The id an event refers to. -/
def eventId : QEvent → Nat
  | .attempt i => i
  | .written i _ => i
  | .pushback i => i
  | .dropped i _ => i

/-- Number of write attempts of job `i` in a trace. -/
def countAttempts (evs : List QEvent) (i : Nat) : Nat :=
  evs.countP (fun e => e == QEvent.attempt i)

/-- Number of front-of-queue pushbacks of job `i` in a trace. -/
def countPushbacks (evs : List QEvent) (i : Nat) : Nat :=
  evs.countP (fun e => e == QEvent.pushback i)

/-! ### Concrete fixtures used by the claim theorems -/

/-- A unique-flagged INTEGER column `id`. -/
def idUniqueCol : Column := { name := "id", type := "INTEGER", unique := true }

/-- A plain STRING column `n`. -/
def nStrCol : Column := { name := "n", type := "STRING" }

/-- A users table with a unique `id` and a plain `n`. -/
def usersTable : Table := Table.new "users" [idUniqueCol, nStrCol] (some "id")

/-- C1 fixture: the table after inserting the row id=1, n="a". -/
def c1t1 : Table :=
  (usersTable.insert (Row.mk [("id", .num 1), ("n", .str "a")])).1

/-- C1 fixture: the colliding insert id=1, n="b". -/
def c1res : Table × InsertResult :=
  c1t1.insert (Row.mk [("id", .num 1), ("n", .str "b")])

/-- C2 fixture: five rows with ids 0..4. -/
def c2t5 : Table :=
  (((((usersTable.insert (Row.mk [("id", .num 0), ("n", .str "x")])).1.insert
      (Row.mk [("id", .num 1), ("n", .str "x")])).1.insert
      (Row.mk [("id", .num 2), ("n", .str "x")])).1.insert
      (Row.mk [("id", .num 3), ("n", .str "x")])).1.insert
      (Row.mk [("id", .num 4), ("n", .str "x")])).1

/-- C2 fixture: the predicate matching the rows at positions 1, 3, 4. -/
def c2pred : Row → Bool := fun r =>
  jsStrictEq (r.get "id") (some (.num 1)) ||
  jsStrictEq (r.get "id") (some (.num 3)) ||
  jsStrictEq (r.get "id") (some (.num 4))

/-- C2 fixture: the delete of positions 1, 3, 4. -/
def c2res : Table × DeleteResult := c2t5.delete (some c2pred)

/-- C3 fixture: the table holding the single row id=1, n="a". -/
def c3t1 : Table :=
  (usersTable.insert (Row.mk [("id", .num 1), ("n", .str "a")])).1

/-- C3 fixture: the identity update re-assigning `id` its current value. -/
def c3res : Table × UpdateResult := c3t1.update (Row.mk [("id", .num 1)]) none

/-- C4 fixture: a column flagged primaryKey but not unique. -/
def pkOnlyCol : Column := { name := "id", type := "INTEGER", primaryKey := true }

/-- C4 fixture: single-column primary-key table after inserting id=1. -/
def c4t1 : Table := ((Table.new "t" [pkOnlyCol] (some "id")).insert
  (Row.mk [("id", .num 1)])).1

/-- C4 fixture: the second insert of the same primary-key value. -/
def c4res : Table × InsertResult := c4t1.insert (Row.mk [("id", .num 1)])

/-- An empty database (no tables, not initializing, no enqueued jobs). -/
def emptyDb : Database := { name := "pesapal_db", tables := [] }

/-- C5 fixture: the created table's definitions (unique INTEGER id,
STRING n). -/
def c5defs : List ColumnDef :=
  [{ name := "id", type := "INTEGER", unique := some true },
   { name := "n", type := "STRING" }]

/-- C5 fixture: database after createTable. -/
def c5db1 : Database := ((emptyDb.createTable "t" c5defs).toOption).getD emptyDb

/-- C5 fixture: after inserting id=10. -/
def c5db2 : Database :=
  (c5db1.insertRow "t" (Row.mk [("id", .num 10), ("n", .str "a")])).1

/-- C5 fixture: after inserting id=20. -/
def c5db3 : Database :=
  (c5db2.insertRow "t" (Row.mk [("id", .num 20), ("n", .str "b")])).1

/-- C5 fixture: after inserting id=30. -/
def c5db4 : Database :=
  (c5db3.insertRow "t" (Row.mk [("id", .num 30), ("n", .str "c")])).1

/-- C5 fixture: the delete of the row with id=10 (position 0). -/
def c5del : Database × Option DeleteResult :=
  c5db4.deleteRows "t" (some (fun r => jsStrictEq (r.get "id") (some (.num 10))))

/-- C5 fixture: the re-insert of a row identical to the surviving
id=20 row (accepted because the delete renumbering lost that row's
index entry). -/
def c5dup : Database × Option InsertResult :=
  c5del.1.insertRow "t" (Row.mk [("id", .num 20), ("n", .str "b")])

/-- C5 fixture: the snapshot the database produces at that point. -/
def c5snap : Snapshot := c5dup.1.toJSON

/-- C5 fixture: a fresh database restored from that snapshot. -/
def c5restored : Database := Database.restore "pesapal_db" c5snap

/-- C7 fixture: a primary-key (and unique) INTEGER column. -/
def pkuCol : Column :=
  { name := "id", type := "INTEGER", primaryKey := true, unique := true }

/-- C7 fixture: the table after inserting the row with primary key 1. -/
def c7t1 : Table :=
  ((Table.new "t" [pkuCol] (some "id")).insert (Row.mk [("id", .num 1)])).1

/-- C7 fixture: after deleting where the primary key equals 1. -/
def c7t2 : Table :=
  (c7t1.delete (some (fun r => jsStrictEq (r.get "id") (some (.num 1))))).1

/-- C7 fixture: the second insert of primary key 1. -/
def c7res : Table × InsertResult := c7t2.insert (Row.mk [("id", .num 1)])

/-- C8 fixture: a column definition with a type outside the closed set. -/
def weirdDef : ColumnDef := { name := "c", type := "WEIRD" }

/-- C8 fixture: a database with table "t" registered. -/
def c8dbWithT : Database :=
  ((emptyDb.createTable "t" [{ name := "a", type := "STRING" }]).toOption).getD emptyDb

/-- C9 fixture: an INTEGER column. -/
def c9intCol : Column := { name := "a", type := "INTEGER" }

/-- C10 fixture: definitions that (fruitlessly) request a non-nullable
column with a declared default. -/
def c10defs : List ColumnDef :=
  [{ name := "id", type := "INTEGER", primaryKey := some true, unique := some true,
     nullable := some false, defaultValue := some (Value.num 7) },
   { name := "n", type := "STRING" }]

/-- C10 fixture: the database holding the table created from those
definitions. -/
def c10db1 : Database := ((emptyDb.createTable "t" c10defs).toOption).getD emptyDb

/-- C10 fixture: that table. -/
def c10t : Table := (c10db1.getTable "t").getD (Table.new "x" [] none)

@[simp] theorem setEntry_nil (k : String) (v : Value) :
    setEntry [] k v = [(k, v)] := rfl

theorem get_setEntry_self (l : List (String × Value)) (k : String) (v : Value) :
    (Row.mk (setEntry l k v)).get k = some v := by
  induction l with
  | nil => simp [Row.get, setEntry, List.find?]
  | cons h t ih =>
    obtain ⟨k', v'⟩ := h
    by_cases hk : k' = k
    · subst hk
      simp [Row.get, setEntry, List.find?]
    · simp only [setEntry, if_neg hk]
      simp only [Row.get, List.find?] at ih ⊢
      simp [hk, ih]

theorem get_setEntry_other (l : List (String × Value)) (k k' : String) (v : Value)
    (hne : k' ≠ k) : (Row.mk (setEntry l k v)).get k' = (Row.mk l).get k' := by
  have hkk : ¬ k = k' := fun h => hne h.symm
  induction l with
  | nil => simp [Row.get, setEntry, List.find?, hkk]
  | cons h t ih =>
    obtain ⟨k₀, v₀⟩ := h
    by_cases hk : k₀ = k
    · subst hk
      simp [Row.get, setEntry, List.find?, hkk]
    · simp only [setEntry, if_neg hk]
      simp only [Row.get, List.find?] at ih ⊢
      by_cases hk' : k₀ = k'
      · simp [hk']
      · simp [hk', ih]

@[simp] theorem countAttempts_nil (i : Nat) : countAttempts [] i = 0 := rfl

@[simp] theorem countAttempts_cons (e : QEvent) (evs : List QEvent) (i : Nat) :
    countAttempts (e :: evs) i =
      countAttempts evs i + (if e = .attempt i then 1 else 0) := by
  simp [countAttempts, List.countP_cons]

@[simp] theorem countPushbacks_nil (i : Nat) : countPushbacks [] i = 0 := rfl

@[simp] theorem countPushbacks_cons (e : QEvent) (evs : List QEvent) (i : Nat) :
    countPushbacks (e :: evs) i =
      countPushbacks evs i + (if e = .pushback i then 1 else 0) := by
  simp [countPushbacks, List.countP_cons]

theorem countAttempts_append (a b : List QEvent) (i : Nat) :
    countAttempts (a ++ b) i = countAttempts a i + countAttempts b i := by
  simp [countAttempts, List.countP_append]

theorem countPushbacks_append (a b : List QEvent) (i : Nat) :
    countPushbacks (a ++ b) i = countPushbacks a i + countPushbacks b i := by
  simp [countPushbacks, List.countP_append]

theorem getRetry_setRetry (m : List (String × Nat)) (d : String) (n : Nat) :
    getRetry (setRetry m d n) d = n := by
  induction m with
  | nil => simp [getRetry, setRetry, List.find?]
  | cons e t ih =>
    obtain ⟨d', n'⟩ := e
    by_cases hd : d' = d
    · subst hd
      simp [getRetry, setRetry, List.find?]
    · simp only [setRetry, if_neg hd]
      simp only [getRetry, List.find?] at ih ⊢
      simp [hd, ih]

theorem delRetry_setRetry (m : List (String × Nat)) (d : String) (n : Nat) :
    delRetry (setRetry m d n) d = delRetry m d := by
  induction m with
  | nil => simp [delRetry, setRetry]
  | cons e t ih =>
    obtain ⟨d', n'⟩ := e
    by_cases hd : d' = d
    · subst hd
      simp only [setRetry, if_pos rfl]
      simp only [delRetry] at ih ⊢
      simp [List.filter_cons, ih]
    · simp only [setRetry, if_neg hd]
      simp only [delRetry] at ih ⊢
      simp [List.filter_cons, hd]
      simpa using ih

theorem processQueue_nil (retry : List (String × Nat)) :
    processQueue retry [] = ([], retry) := by
  rw [processQueue.eq_def]

/-- Trace decomposition: processing `j :: rest` is `j`'s episode followed
by the processing of `rest` with `j`'s destination counter cleared. -/
theorem processQueue_cons (i : Nat) (d : String) (os : List Bool) (rest : List QJob)
    (retry : List (String × Nat)) :
    processQueue retry (⟨i, d, os⟩ :: rest) =
      (episodeEvents i d (getRetry retry d) os ++ (processQueue (delRetry retry d) rest).1,
        (processQueue (delRetry retry d) rest).2) := by
  induction os generalizing retry with
  | nil =>
    rw [processQueue.eq_def]
    simp [episodeEvents]
  | cons b os' ih =>
    cases b with
    | true =>
      rw [processQueue.eq_def]
      simp [episodeEvents]
    | false =>
      rw [processQueue.eq_def]
      by_cases hc : getRetry retry d < MAX_RETRIES
      · simp only [if_pos hc]
        rw [ih]
        simp [episodeEvents, if_pos hc, getRetry_setRetry, delRetry_setRetry]
      · simp [episodeEvents, if_neg hc]

theorem episode_eventId (i : Nat) (d : String) :
    ∀ (os : List Bool) (c : Nat), ∀ e ∈ episodeEvents i d c os, eventId e = i := by
  intro os
  induction os with
  | nil =>
    intro c e he
    simp only [episodeEvents, List.mem_cons, List.mem_singleton,
      List.not_mem_nil, or_false] at he
    rcases he with rfl | rfl <;> rfl
  | cons b os' ih =>
    intro c e he
    cases b with
    | true =>
      simp only [episodeEvents, List.mem_cons, List.mem_singleton,
        List.not_mem_nil, or_false] at he
      rcases he with rfl | rfl <;> rfl
    | false =>
      simp only [episodeEvents] at he
      by_cases hc : c < MAX_RETRIES
      · rw [if_pos hc] at he
        simp only [List.mem_cons] at he
        rcases he with rfl | he
        · rfl
        rcases he with rfl | he
        · rfl
        · exact ih (c + 1) e he
      · rw [if_neg hc] at he
        simp only [List.mem_cons, List.mem_singleton, List.not_mem_nil, or_false] at he
        rcases he with rfl | rfl <;> rfl

theorem countAttempts_episode_le (i : Nat) (d : String) :
    ∀ (os : List Bool) (c : Nat),
      countAttempts (episodeEvents i d c os) i ≤ 1 + (MAX_RETRIES - c) := by
  intro os
  induction os with
  | nil => intro c; simp [episodeEvents]
  | cons b os' ih =>
    intro c
    cases b with
    | true => simp [episodeEvents]
    | false =>
      by_cases hc : c < MAX_RETRIES
      · simp only [episodeEvents, if_pos hc, countAttempts_cons]
        have hrec := ih (c + 1)
        simp only [MAX_RETRIES] at hc hrec ⊢
        simp
        omega
      · simp [episodeEvents, if_neg hc]

theorem countPushbacks_episode_le (i : Nat) (d : String) :
    ∀ (os : List Bool) (c : Nat),
      countPushbacks (episodeEvents i d c os) i ≤ MAX_RETRIES - c := by
  intro os
  induction os with
  | nil => intro c; simp [episodeEvents]
  | cons b os' ih =>
    intro c
    cases b with
    | true => simp [episodeEvents]
    | false =>
      by_cases hc : c < MAX_RETRIES
      · simp only [episodeEvents, if_pos hc, countPushbacks_cons]
        have hrec := ih (c + 1)
        simp only [MAX_RETRIES] at hc hrec ⊢
        simp
        omega
      · simp [episodeEvents, if_neg hc]

theorem countAttempts_episode_ne (i i' : Nat) (d : String) (h : i' ≠ i) :
    ∀ (os : List Bool) (c : Nat), countAttempts (episodeEvents i d c os) i' = 0 := by
  intro os
  induction os with
  | nil => intro c; simp [episodeEvents, Ne.symm h]
  | cons b os' ih =>
    intro c
    cases b with
    | true => simp [episodeEvents, Ne.symm h]
    | false =>
      by_cases hc : c < MAX_RETRIES
      · simp [episodeEvents, if_pos hc, Ne.symm h, ih (c + 1)]
      · simp [episodeEvents, if_neg hc, Ne.symm h]

theorem countPushbacks_episode_ne (i i' : Nat) (d : String) (h : i' ≠ i) :
    ∀ (os : List Bool) (c : Nat), countPushbacks (episodeEvents i d c os) i' = 0 := by
  intro os
  induction os with
  | nil => intro c; simp [episodeEvents, Ne.symm h]
  | cons b os' ih =>
    intro c
    cases b with
    | true => simp [episodeEvents, Ne.symm h]
    | false =>
      by_cases hc : c < MAX_RETRIES
      · simp [episodeEvents, if_pos hc, Ne.symm h, ih (c + 1)]
      · simp [episodeEvents, if_neg hc, Ne.symm h]

/-- A job id that occurs nowhere in the queue is never attempted. -/
theorem countAttempts_processQueue_zero (i : Nat) :
    ∀ (jobs : List QJob) (retry : List (String × Nat)),
      (∀ j ∈ jobs, j.id ≠ i) →
      countAttempts (processQueue retry jobs).1 i = 0 := by
  intro jobs
  induction jobs with
  | nil =>
    intro retry _
    rw [processQueue.eq_def]
    simp
  | cons j rest ih =>
    intro retry hids
    obtain ⟨i₀, d, os⟩ := j
    have hne : i ≠ i₀ := by
      have h0 := hids ⟨i₀, d, os⟩ (by simp)
      exact fun hcontra => h0 (by simpa using hcontra.symm)
    rw [processQueue_cons]
    rw [countAttempts_append,
      countAttempts_episode_ne i₀ i d hne os (getRetry retry d),
      ih (delRetry retry d) (fun j hj => hids j (List.mem_cons_of_mem _ hj))]

/-- Analogue of `countAttempts_processQueue_zero` for pushbacks. -/
theorem countPushbacks_processQueue_zero (i : Nat) :
    ∀ (jobs : List QJob) (retry : List (String × Nat)),
      (∀ j ∈ jobs, j.id ≠ i) →
      countPushbacks (processQueue retry jobs).1 i = 0 := by
  intro jobs
  induction jobs with
  | nil =>
    intro retry _
    rw [processQueue.eq_def]
    simp
  | cons j rest ih =>
    intro retry hids
    obtain ⟨i₀, d, os⟩ := j
    have hne : i ≠ i₀ := by
      have h0 := hids ⟨i₀, d, os⟩ (by simp)
      exact fun hcontra => h0 (by simpa using hcontra.symm)
    rw [processQueue_cons]
    rw [countPushbacks_append,
      countPushbacks_episode_ne i₀ i d hne os (getRetry retry d),
      ih (delRetry retry d) (fun j hj => hids j (List.mem_cons_of_mem _ hj))]

/-- In any run over jobs with pairwise-distinct ids, no job is attempted
more than `MAX_RETRIES + 1 = 4` times. -/
theorem countAttempts_processQueue_le (i : Nat) :
    ∀ (jobs : List QJob) (retry : List (String × Nat)),
      (jobs.map QJob.id).Nodup →
      countAttempts (processQueue retry jobs).1 i ≤ MAX_RETRIES + 1 := by
  intro jobs
  induction jobs with
  | nil =>
    intro retry _
    rw [processQueue.eq_def]
    simp
  | cons j rest ih =>
    intro retry hnd
    obtain ⟨i₀, d, os⟩ := j
    rw [processQueue_cons, countAttempts_append]
    simp only [List.map_cons, List.nodup_cons] at hnd
    by_cases hi : i = i₀
    · subst hi
      have h1 := countAttempts_episode_le i d os (getRetry retry d)
      have h2 : countAttempts (processQueue (delRetry retry d) rest).1 i = 0 := by
        refine countAttempts_processQueue_zero i rest (delRetry retry d) ?_
        intro j hj hcontra
        exact hnd.1 (by simpa [hcontra] using List.mem_map_of_mem QJob.id hj)
      rw [h2]
      simp only [MAX_RETRIES] at h1 ⊢
      omega
    · rw [countAttempts_episode_ne i₀ i d hi os (getRetry retry d)]
      simpa using ih (delRetry retry d) hnd.2

/-- In any run over jobs with pairwise-distinct ids, no job is pushed
back onto the front more than `MAX_RETRIES = 3` times. -/
theorem countPushbacks_processQueue_le (i : Nat) :
    ∀ (jobs : List QJob) (retry : List (String × Nat)),
      (jobs.map QJob.id).Nodup →
      countPushbacks (processQueue retry jobs).1 i ≤ MAX_RETRIES := by
  intro jobs
  induction jobs with
  | nil =>
    intro retry _
    rw [processQueue.eq_def]
    simp
  | cons j rest ih =>
    intro retry hnd
    obtain ⟨i₀, d, os⟩ := j
    rw [processQueue_cons, countPushbacks_append]
    simp only [List.map_cons, List.nodup_cons] at hnd
    by_cases hi : i = i₀
    · subst hi
      have h1 := countPushbacks_episode_le i d os (getRetry retry d)
      have h2 : countPushbacks (processQueue (delRetry retry d) rest).1 i = 0 := by
        refine countPushbacks_processQueue_zero i rest (delRetry retry d) ?_
        intro j hj hcontra
        exact hnd.1 (by simpa [hcontra] using List.mem_map_of_mem QJob.id hj)
      rw [h2]
      simp only [MAX_RETRIES] at h1 ⊢
      omega
    · rw [countPushbacks_episode_ne i₀ i d hi os (getRetry retry d)]
      simpa using ih (delRetry retry d) hnd.2

/-- Within one episode, a drop event can only be the final event. -/
theorem episode_dropped_last (i : Nat) (d : String) :
    ∀ (os : List Bool) (c : Nat) (l1 l2 : List QEvent) (i' : Nat) (d' : String),
      episodeEvents i d c os = l1 ++ QEvent.dropped i' d' :: l2 → l2 = [] := by
  intro os
  induction os with
  | nil =>
    intro c l1 l2 i' d' heq
    simp only [episodeEvents] at heq
    rcases l1 with _ | ⟨e1, _ | ⟨e2, l1⟩⟩ <;> simp_all
  | cons b os' ih =>
    intro c l1 l2 i' d' heq
    cases b with
    | true =>
      simp only [episodeEvents] at heq
      rcases l1 with _ | ⟨e1, _ | ⟨e2, l1⟩⟩ <;> simp_all
    | false =>
      simp only [episodeEvents] at heq
      by_cases hc : c < MAX_RETRIES
      · rw [if_pos hc] at heq
        rcases l1 with _ | ⟨e1, l1⟩
        · simp_all
        · simp only [List.cons_append, List.cons.injEq] at heq
          rcases l1 with _ | ⟨e2, l1⟩
          · simp_all
          · simp only [List.cons_append, List.cons.injEq] at heq
            exact ih (c + 1) l1 l2 i' d' heq.2.2
      · rw [if_neg hc] at heq
        rcases l1 with _ | ⟨e1, l1⟩
        · simp_all
        · rcases l1 with _ | ⟨e2, l1⟩ <;> simp_all

/-- Once a job is dropped, it is never attempted again: after a drop
event for id `i`, the rest of the trace holds no attempt of `i`
(ids pairwise distinct). -/
theorem no_attempt_after_drop (i : Nat) (d : String) :
    ∀ (jobs : List QJob) (retry : List (String × Nat)) (l1 l2 : List QEvent),
      (jobs.map QJob.id).Nodup →
      (processQueue retry jobs).1 = l1 ++ QEvent.dropped i d :: l2 →
      countAttempts l2 i = 0 := by
  intro jobs
  induction jobs with
  | nil =>
    intro retry l1 l2 _ heq
    rw [processQueue.eq_def] at heq
    simp at heq
  | cons j rest ih =>
    intro retry l1 l2 hnd heq
    obtain ⟨i₀, d₀, os⟩ := j
    rw [processQueue_cons] at heq
    simp only at heq
    simp only [List.map_cons, List.nodup_cons] at hnd
    rcases List.append_eq_append_iff.mp heq with ⟨a', ha1, ha2⟩ | ⟨c', hc1, hc2⟩
    · exact ih (delRetry retry d₀) a' l2 hnd.2 ha2
    · rcases c' with _ | ⟨e, c''⟩
      · simp only [List.nil_append] at hc2
        exact ih (delRetry retry d₀) [] l2 hnd.2 hc2.symm
      · simp only [List.cons_append, List.cons.injEq] at hc2
        have hdropMem : QEvent.dropped i d ∈
            episodeEvents i₀ d₀ (getRetry retry d₀) os := by
          rw [hc1, hc2.1]
          exact List.mem_append_right _ (List.mem_cons_self _ _)
        have hid : i = i₀ := by
          have := episode_eventId i₀ d₀ os (getRetry retry d₀) _ hdropMem
          simpa [eventId] using this
        -- the drop is inside the episode: the episode ends there
        have hepi : episodeEvents i₀ d₀ (getRetry retry d₀) os =
            l1 ++ QEvent.dropped i d :: c'' := by
          rw [hc1, hc2.1]
        have hcnil : c'' = [] :=
          episode_dropped_last i₀ d₀ os (getRetry retry d₀) l1 c'' i d hepi
        subst hcnil
        have hl2 : l2 = (processQueue (delRetry retry d₀) rest).1 := by
          simpa using hc2.2
        rw [hl2, hid]
        refine countAttempts_processQueue_zero i₀ rest (delRetry retry d₀) ?_
        intro j hj hcontra
        exact hnd.1 (by simpa [hcontra] using List.mem_map_of_mem QJob.id hj)

theorem buildRowStep_get_other (data row : Row) (column : Column) (nm : String)
    (h : column.name ≠ nm) :
    (buildRowStep data row column).get nm = row.get nm := by
  unfold buildRowStep
  cases data.get column.name <;>
    exact get_setEntry_other row.entries column.name nm _ (Ne.symm h)

theorem foldl_buildRowStep_preserves (data : Row) (nm : String) :
    ∀ (cs : List Column) (acc : Row), (∀ c ∈ cs, c.name ≠ nm) →
      (cs.foldl (buildRowStep data) acc).get nm = acc.get nm := by
  intro cs
  induction cs with
  | nil => intro acc _; rfl
  | cons c cs ih =>
    intro acc h
    simp only [List.foldl_cons]
    rw [ih _ (fun c' hc' => h c' (List.mem_cons_of_mem _ hc'))]
    exact buildRowStep_get_other data acc c nm (h c (List.mem_cons_self _ _))

/-- If the submitted data omits column name `nm`, every column of that
name declares default null, and some column has that name, then the
constructed row stores null at `nm`. -/
theorem foldl_buildRowStep_default (data : Row) (nm : String) :
    ∀ (cs : List Column) (acc : Row),
      (∃ c ∈ cs, c.name = nm) →
      data.get nm = none →
      (∀ c ∈ cs, c.name = nm → c.defaultValue = Value.null) →
      (cs.foldl (buildRowStep data) acc).get nm = some Value.null := by
  intro cs
  induction cs with
  | nil =>
    intro acc hex _ _
    exact absurd hex (by simp)
  | cons c cs ih =>
    intro acc hex habs hdef
    simp only [List.foldl_cons]
    by_cases hc : c.name = nm
    · have hstep : (buildRowStep data acc c).get nm = some Value.null := by
        unfold buildRowStep
        rw [hc, habs, hdef c (List.mem_cons_self _ _) hc]
        rw [show acc.set nm Value.null = Row.mk (setEntry acc.entries nm Value.null) from rfl]
        exact get_setEntry_self acc.entries nm Value.null
      by_cases h2 : ∃ c' ∈ cs, c'.name = nm
      · exact ih _ h2 habs (fun c' hc' => hdef c' (List.mem_cons_of_mem _ hc'))
      · push_neg at h2
        rw [foldl_buildRowStep_preserves data nm cs _ h2]
        exact hstep
    · have hex' : ∃ c' ∈ cs, c'.name = nm := by
        rcases hex with ⟨c', hm, hn⟩
        rcases List.mem_cons.mp hm with rfl | hm'
        · exact absurd hn hc
        · exact ⟨c', hm', hn⟩
      exact ih _ hex' habs (fun c' hc' => hdef c' (List.mem_cons_of_mem _ hc'))

theorem updateIndex_rows (t : Table) (c : String) (v : Value) (i : Nat) :
    (t.updateIndex c v i).rows = t.rows := by
  unfold Table.updateIndex
  cases Indexes.get t.indexes c <;> simp

theorem indexStep_rows (row : Row) (rowIndex : Nat) (tb : Table) (column : Column) :
    (indexStep row rowIndex tb column).rows = tb.rows := by
  unfold indexStep
  split
  · exact updateIndex_rows tb column.name _ rowIndex
  · rfl

theorem foldl_indexStep_rows (row : Row) (rowIndex : Nat) :
    ∀ (cs : List Column) (tb : Table),
      (cs.foldl (indexStep row rowIndex) tb).rows = tb.rows := by
  intro cs
  induction cs with
  | nil => intro tb; rfl
  | cons c cs ih =>
    intro tb
    simp only [List.foldl_cons]
    rw [ih, indexStep_rows]

theorem addRowToIndexes_rows (tb : Table) (row : Row) (i : Nat) :
    (addRowToIndexes tb row i).rows = tb.rows :=
  foldl_indexStep_rows row i tb.columns tb

theorem find_tablesSet (m : List (String × Table)) (k : String) (t : Table) :
    List.find? (fun e => e.1 = k) (tablesSet m k t) = some (k, t) := by
  induction m with
  | nil => simp [tablesSet, List.find?]
  | cons e rest ih =>
    obtain ⟨k', t'⟩ := e
    by_cases hk : k' = k
    · subst hk
      simp [tablesSet, List.find?]
    · simp only [tablesSet, if_neg hk]
      simp only [List.find?] at ih ⊢
      simp [hk, ih]

theorem saveToFile_tables (db : Database) : db.saveToFile.tables = db.tables := by
  unfold Database.saveToFile
  split <;> rfl

/-- What a successful `createTable` registers: the table built from the
definitions, looked up under its name. -/
theorem createTable_ok (db : Database) (n : String) (defs : List ColumnDef)
    (db' : Database) (h : db.createTable n defs = .ok db') :
    db'.getTable n = some (createdTable n defs) := by
  by_cases hdup : (db.getTable n).isSome
  · simp [Database.createTable, hdup] at h
  · simp only [Database.createTable, hdup, Bool.false_eq_true, if_false,
      Except.ok.injEq] at h
    rw [← h]
    simp only [Database.getTable, saveToFile_tables]
    rw [find_tablesSet]
    rfl

/-! ### The claims -/

/-- C1 (code bug): the claim says every insert whose unique-column value
collides with an existing row fails with a duplicate-unique error and
leaves the row count unchanged.  The code's field-differencing "same
row" heuristic accepts the collision whenever any other field differs:
inserting id=1, n="b" over the stored id=1, n="a" succeeds and grows the
table, putting two positions under the unique value 1. -/
theorem c1_duplicate_unique_insert_accepted :
    c1t1.rows.length = 1 ∧
    c1res.2.success = true ∧
    c1res.2.errors = none ∧
    c1res.1.rows.length = 2 ∧
    (c1res.1.findByIndex "id" (.num 1)).length = 2 := by
  decide

/-- C2 (code bug): the claim says that after deleting the rows at
positions 1, 3, 4 of a 5-row table the secondary indexes exactly reflect
the two remaining rows at their re-packed positions.  The renumbering
step `indices.map(i => i > index ? i - 1 : i).filter(i => i !== index)`
filters after decrementing, so the entry of the row shifted into the
deleted position is dropped: the surviving id=2 row (now at position 1)
has no index entry and `findByIndex("id", 2)` returns nothing. -/
theorem c2_delete_drops_live_index_entry :
    c2res.2.rowsAffected = 3 ∧
    c2res.1.select none =
      [Row.mk [("id", .num 0), ("n", .str "x")],
       Row.mk [("id", .num 2), ("n", .str "x")]] ∧
    c2res.1.findByIndex "id" (.num 0) = [Row.mk [("id", .num 0), ("n", .str "x")]] ∧
    c2res.1.findByIndex "id" (.num 2) = [] := by
  decide

/-- C3 (code bug): the claim says the update-time uniqueness check
excludes the row being updated by position, so re-assigning a unique
column its current value revalidates cleanly and the row is updated.
The code instead compares fields: an identity update makes the candidate
equal to its own stored row, the heuristic classifies it as a conflict,
and the row is skipped with a duplicate-unique error. -/
theorem c3_identity_update_rejected_as_duplicate :
    c3res.2.rowsAffected = 0 ∧
    c3res.2.success = false ∧
    c3res.2.errors =
      some ["Row at index 0: Duplicate value for unique column id: 1"] ∧
    c3res.1.rows = c3t1.rows := by
  decide

/-- C4 (code bug): the claim says `validateRow` checks uniqueness for
primaryKey-flagged columns as well, so a duplicate primary-key insert
fails.  The code's unique-constraint branch tests only `column.unique`:
with a column flagged primaryKey but not unique, the duplicate insert
validates, succeeds, and the maintained index maps the value 1 to two
row positions. -/
theorem c4_primary_key_duplicate_accepted :
    (c4t1.validateRow (Row.mk [("id", .num 1)])).1 = true ∧
    c4res.2.success = true ∧
    c4res.1.rows.length = 2 ∧
    Indexes.get c4res.1.indexes "id" = some (IndexMap.mk [(.num 1, [0, 1])]) := by
  decide

/-- C5 (code bug): the claim says restoring a database from a snapshot
it previously produced yields identical listTables and per-table row
counts, with zero persistence jobs enqueued.  A reachable state (three
inserts, a delete whose renumbering corrupts the index, then an insert
of a row identical to a survivor) produces a snapshot with 3 recorded
rows of which only 2 survive re-validation on restore: the identical
duplicate is skipped.  The zero-jobs half does hold: restoration
enqueues nothing. -/
theorem c5_restore_loses_row_of_produced_snapshot :
    (emptyDb.createTable "t" c5defs).isOk = true ∧
    ((c5db1.insertRow "t" (Row.mk [("id", .num 10), ("n", .str "a")])).2.map
      InsertResult.success) = some true ∧
    ((c5db2.insertRow "t" (Row.mk [("id", .num 20), ("n", .str "b")])).2.map
      InsertResult.success) = some true ∧
    ((c5db3.insertRow "t" (Row.mk [("id", .num 30), ("n", .str "c")])).2.map
      InsertResult.success) = some true ∧
    (c5del.2.map DeleteResult.rowsAffected) = some 1 ∧
    (c5dup.2.map InsertResult.success) = some true ∧
    c5snap.tables.map SavedTable.name = ["t"] ∧
    c5snap.tables.map (fun td => td.schema.rowCount) = [3] ∧
    c5snap.tables.map (fun td => td.rows.length) = [3] ∧
    c5restored.listTables = ["t"] ∧
    (c5restored.getTable "t").map (fun t => t.rows.length) = some 2 ∧
    c5restored.jobs = [] := by
  decide

/-- C6 (confirmed): in the persistence queue a failing job is pushed
back onto the front at most `MAX_RETRIES = 3` times, so no job is
attempted more than four times; once dropped, a job is never attempted
again; and a successful write clears the destination's retry counter
(the final counter map is empty in both concrete runs, so the
destination reads as zero).  The concrete runs realize the spec's two
scenarios: fail-fail-succeed persists and clears the counter;
four failures drop the job and the queue continues with the next. -/
theorem c6_persistence_queue_retry_discipline :
    (∀ (jobs : List QJob) (retry : List (String × Nat)) (i : Nat),
        (jobs.map QJob.id).Nodup →
        countAttempts (processQueue retry jobs).1 i ≤ MAX_RETRIES + 1) ∧
    (∀ (jobs : List QJob) (retry : List (String × Nat)) (i : Nat),
        (jobs.map QJob.id).Nodup →
        countPushbacks (processQueue retry jobs).1 i ≤ MAX_RETRIES) ∧
    (∀ (jobs : List QJob) (retry : List (String × Nat)) (i : Nat) (d : String)
        (l1 l2 : List QEvent),
        (jobs.map QJob.id).Nodup →
        (processQueue retry jobs).1 = l1 ++ QEvent.dropped i d :: l2 →
        countAttempts l2 i = 0) ∧
    processQueue [] [⟨1, "db.json", [false, false, true]⟩] =
      ([.attempt 1, .pushback 1, .attempt 1, .pushback 1, .attempt 1,
        .written 1 "db.json"], []) ∧
    processQueue [] [⟨1, "db.json", [false, false, false, false]⟩,
        ⟨2, "other.json", [true]⟩] =
      ([.attempt 1, .pushback 1, .attempt 1, .pushback 1, .attempt 1, .pushback 1,
        .attempt 1, .dropped 1 "db.json", .attempt 2, .written 2 "other.json"],
       []) := by
  refine ⟨?_, ?_, ?_, ?_, ?_⟩
  · intro jobs retry i h
    exact countAttempts_processQueue_le i jobs retry h
  · intro jobs retry i h
    exact countPushbacks_processQueue_le i jobs retry h
  · intro jobs retry i d l1 l2 h heq
    exact no_attempt_after_drop i d jobs retry l1 l2 h heq
  · rw [processQueue_cons, processQueue_nil]
    decide
  · rw [processQueue_cons, processQueue_cons, processQueue_nil]
    decide

/-- C6 witness: the bounds and the after-drop silence instantiated on a
concrete queue. -/
theorem c6_persistence_queue_retry_discipline_witness :
    (([⟨1, "a.json", [false, false, false, false]⟩,
       ⟨2, "b.json", []⟩] : List QJob).map QJob.id).Nodup ∧
    countAttempts (processQueue []
      [⟨1, "a.json", [false, false, false, false]⟩, ⟨2, "b.json", []⟩]).1 1 ≤
      MAX_RETRIES + 1 ∧
    countPushbacks (processQueue []
      [⟨1, "a.json", [false, false, false, false]⟩, ⟨2, "b.json", []⟩]).1 1 ≤
      MAX_RETRIES ∧
    countAttempts [QEvent.attempt 2, QEvent.written 2 "b.json"] 1 = 0 :=
  ⟨by decide,
   c6_persistence_queue_retry_discipline.1
     [⟨1, "a.json", [false, false, false, false]⟩, ⟨2, "b.json", []⟩] [] 1
     (by decide),
   c6_persistence_queue_retry_discipline.2.1
     [⟨1, "a.json", [false, false, false, false]⟩, ⟨2, "b.json", []⟩] [] 1
     (by decide),
   c6_persistence_queue_retry_discipline.2.2.1
     [⟨1, "a.json", [false, false, false, false]⟩, ⟨2, "b.json", []⟩] [] 1 "a.json"
     [.attempt 1, .pushback 1, .attempt 1, .pushback 1, .attempt 1, .pushback 1,
      .attempt 1]
     [.attempt 2, .written 2 "b.json"] (by decide)
     (by rw [processQueue_cons, processQueue_cons, processQueue_nil]; decide)⟩

/-- C7 (confirmed): insert primary key 1, delete where the primary key
equals 1, insert primary key 1 again — the second insert succeeds,
because the delete strips the removed row's entries from every secondary
index (the id index is left with no entry for 1), not just from row
storage. -/
theorem c7_reinsert_after_delete_succeeds :
    c7t1.rows.length = 1 ∧
    (c7t1.delete (some (fun r => jsStrictEq (r.get "id")
      (some (.num 1))))).2.rowsAffected = 1 ∧
    c7t2.rows = [] ∧
    c7t2.findByIndex "id" (.num 1) = [] ∧
    Indexes.get c7t2.indexes "id" = some (IndexMap.mk []) ∧
    c7res.2.success = true ∧
    c7res.1.rows = [Row.mk [("id", .num 1)]] ∧
    c7res.1.findByIndex "id" (.num 1) = [Row.mk [("id", .num 1)]] := by
  decide

/-- C8 counterexample: the claim says `createTable` fails when a column
definition names a type outside {INTEGER, FLOAT, STRING, BOOLEAN, DATE};
with the type "WEIRD" it succeeds and registers the table. -/
theorem c8_unknown_type_accepted :
    (emptyDb.createTable "t" [weirdDef]).isOk = true ∧
    ((emptyDb.createTable "t" [weirdDef]).toOption.getD emptyDb).listTables =
      ["t"] ∧
    weirdDef.type ∉ ["INTEGER", "FLOAT", "STRING", "BOOLEAN", "DATE"] := by
  decide

/-- C8 (amended): `createTable` fails with a duplicate-table error when
the name is already registered (the error is thrown before any
registration, so the registry is untouched); it performs no runtime
validation of column types — with a fresh name it succeeds for any
definitions whatsoever. -/
theorem c8_duplicate_table_error_and_no_type_check (db : Database) (n : String)
    (cols : List ColumnDef) :
    ((db.getTable n).isSome = true →
      db.createTable n cols = .error ("Table " ++ n ++ " already exists")) ∧
    ((db.getTable n).isSome = false →
      (db.createTable n cols).isOk = true) := by
  constructor
  · intro h
    simp [Database.createTable, h]
  · intro h
    simp [Database.createTable, h, Except.isOk, Except.toBool]

/-- C8 witness: both branches at concrete inputs — the duplicate name
"t" errors, and a fresh name with an unrecognized type succeeds. -/
theorem c8_duplicate_table_error_and_no_type_check_witness :
    (c8dbWithT.getTable "t").isSome = true ∧
    c8dbWithT.createTable "t" [] = .error ("Table " ++ "t" ++ " already exists") ∧
    (emptyDb.getTable "u").isSome = false ∧
    (emptyDb.createTable "u" [weirdDef]).isOk = true :=
  ⟨by decide,
   (c8_duplicate_table_error_and_no_type_check c8dbWithT "t" []).1 (by decide),
   by decide,
   (c8_duplicate_table_error_and_no_type_check emptyDb "u" [weirdDef]).2 (by decide)⟩

/-- C9 counterexample: the claim says non-numeric values such as numeric
strings and booleans are rejected by an INTEGER column's validate; the
code coerces with `Number(value)` first, so the string "5" and the
boolean true are accepted. -/
theorem c9_integer_validate_accepts_string_and_bool :
    c9intCol.validate (some (Value.str "5")) = true ∧
    c9intCol.validate (some (Value.bool true)) = true := by
  decide

/-- C9 (amended): for an INTEGER column, validate(value) returns true
for a non-null value iff the JS `Number` coercion of the value is an
integral number — integral numbers, integral numeric strings and
booleans are accepted; fractional values, NaN and non-numeric strings
are rejected. -/
theorem c9_integer_validate_amended :
    (∀ v : Value, v ≠ Value.null →
      (c9intCol.validate (some v) = true ↔ jsIsInteger (jsToNumber v) = true)) ∧
    (∀ q : Rat, c9intCol.validate (some (Value.num q)) = (q.den == 1)) ∧
    (∀ n : Int, c9intCol.validate (some (Value.num (n : Rat))) = true) ∧
    (∀ b : Bool, c9intCol.validate (some (Value.bool b)) = true) ∧
    c9intCol.validate (some (Value.str "5")) = true ∧
    c9intCol.validate (some (Value.str "5.0")) = true ∧
    c9intCol.validate (some (Value.str "abc")) = false ∧
    c9intCol.validate (some (Value.str "5.5")) = false ∧
    c9intCol.validate (some Value.nan) = false := by
  refine ⟨?_, ?_, ?_, ?_, ?_, ?_, ?_, ?_, ?_⟩
  · intro v hv
    cases v with
    | null => exact absurd rfl hv
    | num q => simp [Column.validate, c9intCol]
    | str s => simp [Column.validate, c9intCol]
    | bool b => simp [Column.validate, c9intCol]
    | nan => simp [Column.validate, c9intCol, jsToNumber, jsIsInteger]
  · intro q
    simp [Column.validate, c9intCol, jsToNumber, jsIsInteger]
  · intro n
    simp [Column.validate, c9intCol, jsToNumber, jsIsInteger, Rat.den_intCast]
  · intro b
    cases b <;> decide
  · decide
  · decide
  · decide
  · decide
  · decide

/-- C9 witness: the amended equivalence instantiated at the non-null
value "7". -/
theorem c9_integer_validate_amended_witness :
    Value.str "7" ≠ Value.null ∧
    (c9intCol.validate (some (Value.str "7")) = true ↔
      jsIsInteger (jsToNumber (Value.str "7")) = true) :=
  ⟨by decide, c9_integer_validate_amended.1 (Value.str "7") (by decide)⟩

/-- C10 (confirmed): every column of a table created through
`Database.createTable` has nullable = true and defaultValue = null —
the creation path forwards only name, type, primaryKey and unique — so
no created table has a required column or a declared default, and a
successful insert that omits a column stores null there (in the
returned copy and in the appended stored row). -/
theorem c10_created_columns_nullable_default_null
    (db : Database) (n : String) (defs : List ColumnDef) (db' : Database)
    (hok : db.createTable n defs = .ok db') (t : Table)
    (ht : db'.getTable n = some t) :
    (∀ c ∈ t.columns, c.nullable = true ∧ c.defaultValue = Value.null) ∧
    (∀ (data : Row) (c : Column), c ∈ t.columns → data.get c.name = none →
      (t.insert data).2.success = true →
      ∃ r, (t.insert data).2.row = some r ∧
        (t.insert data).1.rows.getLast? = some r ∧
        r.get c.name = some Value.null) := by
  have hcreated := createTable_ok db n defs db' hok
  rw [ht] at hcreated
  have htEq : t = createdTable n defs := by
    exact Option.some.inj hcreated
  have hcols : ∀ c ∈ t.columns, c.nullable = true ∧ c.defaultValue = Value.null := by
    intro c hc
    rw [htEq] at hc
    simp only [createdTable, Table.new] at hc
    rcases List.mem_map.mp hc with ⟨d, -, rfl⟩
    exact ⟨rfl, rfl⟩
  refine ⟨hcols, ?_⟩
  intro data c hc habs hsucc
  by_cases hval : (t.validateRow data).1
  · refine ⟨buildRow t.columns data, ?_, ?_, ?_⟩
    · simp [Table.insert, hval]
    · simp only [Table.insert, hval, not_true_eq_false, if_false]
      rw [addRowToIndexes_rows]
      simp
    · unfold buildRow
      refine foldl_buildRowStep_default data c.name t.columns (Row.mk [])
        ⟨c, hc, rfl⟩ habs ?_
      intro c' hc' _
      exact (hcols c' hc').2
  · exfalso
    simp [Table.insert, hval] at hsucc

/-- C10 witness: the theorem applied to a concrete creation whose
definitions request nullable = false and a default of 7, and an insert
omitting the column n. -/
theorem c10_created_columns_nullable_default_null_witness :
    (∀ c ∈ c10t.columns, c.nullable = true ∧ c.defaultValue = Value.null) ∧
    (∃ r, (c10t.insert (Row.mk [("id", .num 1)])).2.row = some r ∧
      (c10t.insert (Row.mk [("id", .num 1)])).1.rows.getLast? = some r ∧
      r.get "n" = some Value.null) := by
  have h := c10_created_columns_nullable_default_null emptyDb "t" c10defs c10db1
    (by rfl) c10t (by decide)
  refine ⟨h.1, ?_⟩
  exact h.2 (Row.mk [("id", .num 1)]) nStrCol (by decide) (by decide) (by decide)

end Pesapal
